import Mathlib

/-!
Verification of the batch-renamer repository (src/src/lib.rs,
src/src/print-rename.rs, src/src/batch-rename.rs) against its
specification, via a shallow embedding.

Modelling conventions:
* An `OsString` is modelled as a `String`; a filesystem path as a
  `Path := List String`, the list of its components below the root
  (`[]` is the root `/`). Rust's `Path::parent` returns `None` exactly
  for the root, and `Path::file_name` is the last component, so
  `parentDir`/`fileName` below.
* Effects performed by the code itself (temporary-directory creation and
  removal, placeholder writes, external-command invocations) are recorded
  in an event trace; the behaviour of the outside world (filesystem
  resolution, what the external command does) is an `Env` parameter.
* `anyhow` errors are an inductive `Err`; the context string attached at
  each `with_context` site is `Err.message`.
-/

namespace BatchRenamer

/-- A filesystem path, as its components below the root. -/
abbrev Path := List String

/-- Render a path the way `Path::display` would (absolute paths only). -/
def pathString (p : Path) : String :=
  "/" ++ String.intercalate "/" p

/-- `Path::parent`: `None` for the root, otherwise the path without its
last component. -/
def parentDir (p : Path) : Option Path :=
  if p.isEmpty then none else some p.dropLast

/-- `Path::file_name`: the last component, when there is one. -/
def fileName (p : Path) : Option String :=
  p.getLast?

/-- `std::process::Output`, restricted to the fields the code reads:
`status.success()`, `status.code()` and the captured standard error
(already decoded, as `String::from_utf8_lossy` would). -/
structure Output where
  success : Bool
  code : Option Int
  stderr : String
deriving DecidableEq, Repr

/-- Rust `str::trim_end`: drop trailing whitespace. -/
def trimEnd (s : String) : String :=
  ((s.data.reverse.dropWhile Char.isWhitespace).reverse).asString

/-- `concat_command` (src/src/lib.rs): fold the arguments onto the
command, separated by single spaces. -/
def concatCommand (command : String) (args : List String) : String :=
  args.foldl (fun cmd arg => cmd ++ " " ++ arg) command

/-- `format_command` (src/src/lib.rs). In the model strings are already
Unicode, so `to_string_lossy` is the identity. -/
def formatCommand (command : String) (args : List String) : String :=
  concatCommand command args

/-- `evaluate` (src/src/lib.rs lines 49-76): `Ok` on a successful exit
status; otherwise an error carrying the formatted command line, the exit
code (or a terminated-by-signal marker) and the trimmed stderr tail. -/
def evaluate (output : Output) (command : String) (args : List String) :
    Except String Unit :=
  if output.success then
    Except.ok ()
  else
    let code :=
      match output.code with
      | some code => " (" ++ toString code ++ ")"
      | none => " (terminated by signal)"
    let stderr := trimEnd output.stderr
    let stderr := if !stderr.isEmpty then ": " ++ stderr else ""
    Except.error ("`" ++ formatCommand command args
      ++ "` reported non-zero exit-status" ++ code ++ stderr)

/-- C7: `evaluate` returns `Ok` exactly when the exit status is a
success; otherwise it fails with a message consisting of the fully
formatted command line, the exit code (or "terminated by signal" when
killed by a signal), and the trailing, trimmed stderr when that trimmed
text is non-empty. -/
theorem evaluate_ok_iff_success (out : Output) (c : String) (args : List String) :
    (evaluate out c args = Except.ok () ↔ out.success = true)
    ∧ (out.success = false →
        evaluate out c args = Except.error (
          "`" ++ formatCommand c args ++ "` reported non-zero exit-status"
          ++ (match out.code with
              | some n => " (" ++ toString n ++ ")"
              | none => " (terminated by signal)")
          ++ (if trimEnd out.stderr = "" then "" else ": " ++ trimEnd out.stderr))) := by
  constructor
  · unfold evaluate
    cases h : out.success <;> simp
  · intro h
    unfold evaluate
    rw [h]
    have h0 : "".isEmpty = true := rfl
    by_cases he : trimEnd out.stderr = ""
    · simp [he, h0]
    · have hb : (trimEnd out.stderr).isEmpty = false := by
        cases hh : (trimEnd out.stderr).isEmpty with
        | false => rfl
        | true => exact absurd ((String.isEmpty_iff _).mp hh) he
      simp [hb, he]

/-- Witness for C7: a concrete failed output, exit code 1, stderr
"oops \n"; the message carries the command line, the code and the
trimmed stderr. -/
theorem evaluate_ok_iff_success_witness :
    evaluate ⟨false, some 1, "oops \n"⟩ "mv" ["x"]
      = Except.error "`mv x` reported non-zero exit-status (1): oops" := by
  have h := (evaluate_ok_iff_success ⟨false, some 1, "oops \n"⟩ "mv" ["x"]).2 rfl
  rw [h]
  rfl

/-- One invocation of an external process: program, arguments, and the
working directory it is started in (`current_dir`). -/
structure Invocation where
  prog : String
  args : List String
  cwd : Path
deriving DecidableEq, Repr

/-- Filesystem-side effects performed by the code itself.  `mkTemp` and
`rmTemp` are the creation and scope-exit removal of the `tempdir()`
guard, `write` is the zero-byte placeholder creation, `invoke` is a run
of the external command. -/
inductive Event where
  | mkTemp (dir : Path)
  | write (path : Path)
  | invoke (inv : Invocation)
  | rmTemp (dir : Path)
deriving DecidableEq, Repr

/-- Whether an event is an external-command invocation. -/
def Event.isInvoke : Event → Bool
  | .invoke _ => true
  | _ => false

/-- The `anyhow` errors produced by the rename pipeline; each constructor
corresponds to one `with_context`/`bail!` site in the source. -/
inductive Err where
  | canonicalizeFailed (file : Path)
  | noParent (path : Path)
  | noFileName (path : Path)
  | writeFailed (path : Path)
  | missingCommand
  | spawnFailed (inv : Invocation)
  | commandFailed (msg : String)
  | readDirFailed (dir : Path)
  | noFileFound (dir : Path)
  | readFirstFileFailed (dir : Path)
deriving DecidableEq, Repr

/-- The context message attached to each error at its `with_context` /
`bail!` site in the source. -/
def Err.message : Err → String
  | .canonicalizeFailed file => "failed to canonicalize `" ++ pathString file ++ "`"
  | .noParent path => "`" ++ pathString path ++ "` does not contain a parent"
  | .noFileName path => "path `" ++ pathString path ++ "` does not have file name"
  | .writeFailed path => "failed to create `" ++ pathString path ++ "`"
  | .missingCommand => "rename command is missing"
  | .spawnFailed inv =>
      "failed to run `" ++ formatCommand inv.prog inv.args ++ "`"
  | .commandFailed msg => msg
  | .readDirFailed dir =>
      "failed to read contents of directory `" ++ pathString dir ++ "`"
  | .noFileFound dir =>
      "no file found in `" ++ pathString dir
        ++ "`; did the rename operation delete instead?"
  | .readFirstFileFailed dir =>
      "failed to read first file of `" ++ pathString dir ++ "`"

/-- The outside world, seen from the rename pipeline:
* `canon` models `fs::canonicalize` (`none` = resolution failure);
* `writeOk` models whether `fs::write` of the placeholder succeeds;
* `spawn` models process creation: `none` is a spawn failure, `some out`
  the captured `Output` of the finished process;
* `listing` gives the entries of an invocation's working directory after
  that invocation ran (queried for the temporary directory);
* `entryIoError` models an I/O failure while reading the first directory
  entry (the error case of `next_entry()` / of the `ReadDir` iterator);
* `readDirOk` models whether opening the directory for reading succeeds. -/
structure Env where
  canon : Path → Option Path
  writeOk : Path → Bool
  spawn : Invocation → Option Output
  listing : Invocation → List String
  entryIoError : Path → Bool
  readDirOk : Path → Bool

/-- `run_in` (src/src/lib.rs lines 80-115): spawn the command in `dir`,
then `evaluate` its exit status. -/
def runIn (env : Env) (inv : Invocation) : Except Err Unit :=
  match env.spawn inv with
  | none => Except.error (.spawnFailed inv)
  | some out =>
    match evaluate out inv.prog inv.args with
    | Except.error msg => Except.error (.commandFailed msg)
    | Except.ok _ => Except.ok ()

/-- `rename` (src/src/lib.rs lines 118-168), the async library function.
`tmp` is the fresh path handed out by `tempdir()`.  The returned pair is
the function result and the trace of its own filesystem effects.

Note the directory-entry step: `next_entry()` returns
`io::Result<Option<DirEntry>>`; its *error* case (modelled by
`env.entryIoError`) carries the "no file found ...; did the rename
operation delete instead?" context, while the `Ok(None)` case — zero
entries left in the temporary directory — falls through to the `Option`
context "failed to read first file of ...". -/
def rename (env : Env) (tmp : Path) (file : Path) (command : List String)
    (dryRun : Bool) : Except Err Path × List Event :=
  let evs := [Event.mkTemp tmp]
  match env.canon file with
  | none => (Except.error (.canonicalizeFailed file), evs ++ [Event.rmTemp tmp])
  | some path =>
    match parentDir path with
    | none => (Except.error (.noParent path), evs ++ [Event.rmTemp tmp])
    | some dir =>
      match fileName path with
      | none => (Except.error (.noFileName path), evs ++ [Event.rmTemp tmp])
      | some name =>
        let tmpFile := tmp ++ [name]
        let evs := evs ++ [Event.write tmpFile]
        if !env.writeOk tmpFile then
          (Except.error (.writeFailed tmpFile), evs ++ [Event.rmTemp tmp])
        else
          match command with
          | [] => (Except.error .missingCommand, evs ++ [Event.rmTemp tmp])
          | cmd :: cmdArgs =>
            let inv1 : Invocation := ⟨cmd, cmdArgs ++ [name], tmp⟩
            let evs := evs ++ [Event.invoke inv1]
            match runIn env inv1 with
            | Except.error e => (Except.error e, evs ++ [Event.rmTemp tmp])
            | Except.ok _ =>
              if !env.readDirOk tmp then
                (Except.error (.readDirFailed tmp), evs ++ [Event.rmTemp tmp])
              else
                match env.entryIoError tmp, (env.listing inv1).head? with
                | true, _ =>
                  (Except.error (.noFileFound tmp), evs ++ [Event.rmTemp tmp])
                | false, none =>
                  (Except.error (.readFirstFileFailed tmp), evs ++ [Event.rmTemp tmp])
                | false, some newName =>
                  if dryRun then
                    (Except.ok (dir ++ [newName]), evs ++ [Event.rmTemp tmp])
                  else
                    let inv2 : Invocation := ⟨cmd, cmdArgs ++ [name], dir⟩
                    let evs := evs ++ [Event.invoke inv2]
                    match runIn env inv2 with
                    | Except.error e => (Except.error e, evs ++ [Event.rmTemp tmp])
                    | Except.ok _ =>
                      (Except.ok (dir ++ [newName]), evs ++ [Event.rmTemp tmp])

/-- The core of print-rename's `main` (src/src/print-rename.rs lines
90-135), after argument parsing: the same algorithm as `rename`, with the
command already split as `cmd`/`cmdArgs` (`clap` guarantees it is
non-empty) and the *synchronous* directory read: the iterator's `next()`
returns `Option<io::Result<DirEntry>>`, so here zero entries hit the
"no file found ...; did the rename operation delete instead?" context
and an entry-read I/O error hits "failed to read first file of ...". -/
def printRename (env : Env) (tmp : Path) (file : Path) (cmd : String)
    (cmdArgs : List String) (dryRun : Bool) : Except Err Path × List Event :=
  let evs := [Event.mkTemp tmp]
  match env.canon file with
  | none => (Except.error (.canonicalizeFailed file), evs ++ [Event.rmTemp tmp])
  | some path =>
    match parentDir path with
    | none => (Except.error (.noParent path), evs ++ [Event.rmTemp tmp])
    | some dir =>
      match fileName path with
      | none => (Except.error (.noFileName path), evs ++ [Event.rmTemp tmp])
      | some name =>
        let tmpFile := tmp ++ [name]
        let evs := evs ++ [Event.write tmpFile]
        if !env.writeOk tmpFile then
          (Except.error (.writeFailed tmpFile), evs ++ [Event.rmTemp tmp])
        else
          let inv1 : Invocation := ⟨cmd, cmdArgs ++ [name], tmp⟩
          let evs := evs ++ [Event.invoke inv1]
          match runIn env inv1 with
          | Except.error e => (Except.error e, evs ++ [Event.rmTemp tmp])
          | Except.ok _ =>
            if !env.readDirOk tmp then
              (Except.error (.readDirFailed tmp), evs ++ [Event.rmTemp tmp])
            else
              match (env.listing inv1).head? with
              | none =>
                (Except.error (.noFileFound tmp), evs ++ [Event.rmTemp tmp])
              | some newName =>
                if env.entryIoError tmp then
                  (Except.error (.readFirstFileFailed tmp), evs ++ [Event.rmTemp tmp])
                else if dryRun then
                  (Except.ok (dir ++ [newName]), evs ++ [Event.rmTemp tmp])
                else
                  let inv2 : Invocation := ⟨cmd, cmdArgs ++ [name], dir⟩
                  let evs := evs ++ [Event.invoke inv2]
                  match runIn env inv2 with
                  | Except.error e => (Except.error e, evs ++ [Event.rmTemp tmp])
                  | Except.ok _ =>
                    (Except.ok (dir ++ [newName]), evs ++ [Event.rmTemp tmp])

/-- The user's decision for one proposed rename. -/
inductive Decision where
  | accept
  | reject
  | quit
deriving DecidableEq, Repr

/-- The keystroke mapping of batch-rename's confirmation `match`
(src/src/batch-rename.rs lines 180-199): empty input, `y`, `Y` accept;
`n`, `N` reject; `q` quits; anything else is not understood. -/
def classify (s : String) : Option Decision :=
  if s = "" ∨ s = "y" ∨ s = "Y" then some .accept
  else if s = "n" ∨ s = "N" then some .reject
  else if s = "q" then some .quit
  else none

/-- Observable steps of batch-rename's `main`.  `prompt` is the
"Would rename ... Accept? (Y/n/q)" display, `notUnderstood` the
"Response ... not understood" report, `spawn` the `spawn_blocking` of a
real rename for the given original path, and `join` the awaiting of such
a task's handle — `join` is part of the vocabulary so that its absence
from every trace of `batchMain` is expressible; the source discards the
handle (`let _handle = ...`) and never awaits it. -/
inductive BEvent where
  | prompt (src dst : String)
  | notUnderstood (s : String)
  | spawn (src : Path)
  | join (src : Path)
deriving DecidableEq, Repr

/-- Whether a batch event is the joining of a spawned rename task. -/
def BEvent.isJoin : BEvent → Bool
  | .join _ => true
  | _ => false

/-- The inner `loop` of batch-rename's `main`: prompt, read one
keystroke, repeat while the input is not understood.  The interactive
read is modelled by a finite list of keystroke strings; the result is
the decision reached (`none` when the modelled input ran out — the real
program would keep blocking on the terminal), the remaining input, and
the emitted events. -/
def confirmLoop (src dst : String) :
    List String → Option Decision × List String × List BEvent
  | [] => (none, [], [])
  | i :: rest =>
    match classify i with
    | some d => (some d, rest, [BEvent.prompt src dst])
    | none =>
      let r := confirmLoop src dst rest
      (r.1, r.2.1, BEvent.prompt src dst :: BEvent.notUnderstood i :: r.2.2)

/-- The consumption loop of batch-rename's `main` (src/src/batch-rename.rs
lines 154-203).  `sims` is the ordered stream of dry-run simulation
results (`futures::stream::buffered` preserves the input order), each
already collapsed through `result??`: either an error (task panic or
simulation failure) or the pair of original path and proposed path.
For each successful pair the source compares the two file names, skips
on equality, and otherwise runs the confirmation loop; `Accept` spawns a
real rename whose `JoinHandle` is discarded, `Reject` moves on, `Quit`
returns `Ok(())` at once.  The result is `none` when the modelled
keystroke input ran out. -/
def batchMain (sims : List (Except Err (Path × Path))) (inputs : List String) :
    Option (Except Err Unit) × List BEvent :=
  match sims with
  | [] => (some (Except.ok ()), [])
  | Except.error e :: _ => (some (Except.error e), [])
  | Except.ok (src, dst) :: rest =>
    match fileName src with
    | none => (some (Except.error (.noFileName src)), [])
    | some srcFile =>
      match fileName dst with
      | none => (some (Except.error (.noFileName dst)), [])
      | some dstFile =>
        if srcFile = dstFile then
          batchMain rest inputs
        else
          match confirmLoop srcFile dstFile inputs with
          | (none, _, evs) => (none, evs)
          | (some Decision.accept, rem, evs) =>
            let r := batchMain rest rem
            (r.1, evs ++ BEvent.spawn src :: r.2)
          | (some Decision.reject, rem, evs) =>
            let r := batchMain rest rem
            (r.1, evs ++ r.2)
          | (some Decision.quit, _, evs) => (some (Except.ok ()), evs)

/-- The original paths for which a real rename was spawned in a trace. -/
def spawnedSrcs (evs : List BEvent) : List Path :=
  evs.filterMap fun ev =>
    match ev with
    | BEvent.spawn src => some src
    | _ => none

/-- A concrete environment in which the external command deletes its
argument instead of renaming it: the command exits successfully but the
temporary directory is left with zero entries. -/
def deleteSimEnv : Env where
  canon := fun _ => some ["home", "a.txt"]
  writeOk := fun _ => true
  spawn := fun _ => some ⟨true, some 0, ""⟩
  listing := fun _ => []
  entryIoError := fun _ => false
  readDirOk := fun _ => true

/-- A concrete environment in which the external command renames the
file `a.txt` to `b.txt` and succeeds. -/
def renameSimEnv : Env where
  canon := fun _ => some ["home", "a.txt"]
  writeOk := fun _ => true
  spawn := fun _ => some ⟨true, some 0, ""⟩
  listing := fun _ => ["b.txt"]
  entryIoError := fun _ => false
  readDirOk := fun _ => true

/-! ## Helper lemmas -/

theorem parentDir_append_single (dir : Path) (n : String) :
    parentDir (dir ++ [n]) = some dir := by
  unfold parentDir
  simp

theorem rename_dry_invoke_cwd (env : Env) (tmp file : Path)
    (command : List String) :
    ∀ inv, Event.invoke inv ∈ (rename env tmp file command true).2 →
      inv.cwd = tmp := by
  intro inv h
  simp only [rename] at h
  repeat' split at h
  all_goals simp_all

theorem rename_write_in_tmp (env : Env) (tmp file : Path)
    (command : List String) (dryRun : Bool) :
    ∀ q, Event.write q ∈ (rename env tmp file command dryRun).2 →
      ∃ n, q = tmp ++ [n] := by
  intro q h
  simp only [rename] at h
  repeat' split at h
  all_goals simp_all

theorem rename_dry_ok_invoke_once (env : Env) (tmp file : Path)
    (command : List String) (res : Except Err Path) (evs : List Event)
    (hr : rename env tmp file command true = (res, evs)) (p : Path)
    (hok : res = Except.ok p) :
    (evs.filter Event.isInvoke).length = 1 := by
  simp only [rename] at hr
  repeat' split at hr
  all_goals simp_all [Event.isInvoke]
  all_goals (rcases hr with ⟨h1, rfl⟩; rfl)

theorem printRename_dry_invoke_cwd (env : Env) (tmp file : Path)
    (cmd : String) (cmdArgs : List String) :
    ∀ inv, Event.invoke inv ∈ (printRename env tmp file cmd cmdArgs true).2 →
      inv.cwd = tmp := by
  intro inv h
  simp only [printRename] at h
  repeat' split at h
  all_goals simp_all

theorem printRename_write_in_tmp (env : Env) (tmp file : Path)
    (cmd : String) (cmdArgs : List String) (dryRun : Bool) :
    ∀ q, Event.write q ∈ (printRename env tmp file cmd cmdArgs dryRun).2 →
      ∃ n, q = tmp ++ [n] := by
  intro q h
  simp only [printRename] at h
  repeat' split at h
  all_goals simp_all

theorem printRename_dry_ok_invoke_once (env : Env) (tmp file : Path)
    (cmd : String) (cmdArgs : List String) (res : Except Err Path)
    (evs : List Event)
    (hr : printRename env tmp file cmd cmdArgs true = (res, evs)) (p : Path)
    (hok : res = Except.ok p) :
    (evs.filter Event.isInvoke).length = 1 := by
  simp only [printRename] at hr
  repeat' split at hr
  all_goals simp_all [Event.isInvoke]
  all_goals (rcases hr with ⟨h1, rfl⟩; rfl)

/-! ## Claim theorems -/

/-- C1: with `dry_run = true`, neither the library `rename` nor
print-rename's main ever touches the real target file or its directory:
every external-command invocation runs with the temporary directory as
its working directory (so none runs in the real parent directory, which
is distinct from the fresh temporary directory), the only write is the
placeholder inside the temporary directory, and on success the external
command was invoked exactly once. -/
theorem dry_run_never_touches_real_file (env : Env) (tmp file pfile : Path)
    (command : List String) (cmd : String) (cmdArgs : List String) :
    (∀ inv, Event.invoke inv ∈ (rename env tmp file command true).2 →
      inv.cwd = tmp)
    ∧ (∀ dir, tmp ≠ dir →
        ∀ inv, Event.invoke inv ∈ (rename env tmp file command true).2 →
          inv.cwd ≠ dir)
    ∧ (∀ q, Event.write q ∈ (rename env tmp file command true).2 →
        ∃ n, q = tmp ++ [n])
    ∧ (∀ p, (rename env tmp file command true).1 = Except.ok p →
        ((rename env tmp file command true).2.filter Event.isInvoke).length = 1)
    ∧ (∀ inv, Event.invoke inv ∈ (printRename env tmp pfile cmd cmdArgs true).2 →
        inv.cwd = tmp)
    ∧ (∀ dir, tmp ≠ dir →
        ∀ inv, Event.invoke inv ∈ (printRename env tmp pfile cmd cmdArgs true).2 →
          inv.cwd ≠ dir)
    ∧ (∀ q, Event.write q ∈ (printRename env tmp pfile cmd cmdArgs true).2 →
        ∃ n, q = tmp ++ [n])
    ∧ (∀ p, (printRename env tmp pfile cmd cmdArgs true).1 = Except.ok p →
        ((printRename env tmp pfile cmd cmdArgs true).2.filter Event.isInvoke).length
          = 1) := by
  refine ⟨rename_dry_invoke_cwd env tmp file command, ?_,
    rename_write_in_tmp env tmp file command true, ?_,
    printRename_dry_invoke_cwd env tmp pfile cmd cmdArgs, ?_,
    printRename_write_in_tmp env tmp pfile cmd cmdArgs true, ?_⟩
  · intro dir hne inv h
    rw [rename_dry_invoke_cwd env tmp file command inv h]
    exact hne
  · intro p hok
    exact rename_dry_ok_invoke_once env tmp file command _ _ rfl p hok
  · intro dir hne inv h
    rw [printRename_dry_invoke_cwd env tmp pfile cmd cmdArgs inv h]
    exact hne
  · intro p hok
    exact printRename_dry_ok_invoke_once env tmp pfile cmd cmdArgs _ _ rfl p hok

/-- Witness for C1: in the concrete successful dry run the external
command was invoked exactly once, and an invocation whose working
directory is the temporary directory does not run in the real parent
directory. -/
theorem dry_run_never_touches_real_file_witness :
    ((rename renameSimEnv ["tmpd"] ["home", "a.txt"] ["upper"] true).2.filter
        Event.isInvoke).length = 1
    ∧ Invocation.cwd ⟨"upper", ["a.txt"], ["tmpd"]⟩ ≠ ["home"] :=
  ⟨(dry_run_never_touches_real_file renameSimEnv ["tmpd"] ["home", "a.txt"]
      ["home", "a.txt"] ["upper"] "upper" []).2.2.2.1 ["home", "b.txt"] rfl,
   (dry_run_never_touches_real_file renameSimEnv ["tmpd"] ["home", "a.txt"]
      ["home", "a.txt"] ["upper"] "upper" []).2.1 ["home"] (by decide)
      ⟨"upper", ["a.txt"], ["tmpd"]⟩ (by decide)⟩

theorem rename_ok_shape (env : Env) (tmp file : Path) (command : List String)
    (dryRun : Bool) (p : Path)
    (h : (rename env tmp file command dryRun).1 = Except.ok p) :
    ∃ cpath dir name, env.canon file = some cpath ∧ parentDir cpath = some dir
      ∧ p = dir ++ [name] ∧ parentDir p = parentDir cpath := by
  simp only [rename] at h
  repeat' split at h
  all_goals simp_all
  all_goals exact ⟨⟨_, h.symm⟩, by rw [← h, parentDir_append_single]⟩

theorem printRename_ok_shape (env : Env) (tmp file : Path) (cmd : String)
    (cmdArgs : List String) (dryRun : Bool) (p : Path)
    (h : (printRename env tmp file cmd cmdArgs dryRun).1 = Except.ok p) :
    ∃ cpath dir name, env.canon file = some cpath ∧ parentDir cpath = some dir
      ∧ p = dir ++ [name] ∧ parentDir p = parentDir cpath := by
  simp only [printRename] at h
  repeat' split at h
  all_goals simp_all
  all_goals exact ⟨⟨_, h.symm⟩, by rw [← h, parentDir_append_single]⟩

/-- C8: a successful `rename` (and likewise a successful run of
print-rename's main) returns the parent directory of the canonicalized
original path joined with the proposed file name, so the parent
directory of the proposed path equals the parent directory of the
original path. -/
theorem rename_parent_dir_invariant (env : Env) (tmp file : Path)
    (command : List String) (cmd : String) (cmdArgs : List String)
    (dryRun : Bool) (p q : Path) :
    ((rename env tmp file command dryRun).1 = Except.ok p →
      ∃ cpath dir name, env.canon file = some cpath
        ∧ parentDir cpath = some dir ∧ p = dir ++ [name]
        ∧ parentDir p = parentDir cpath)
    ∧ ((printRename env tmp file cmd cmdArgs dryRun).1 = Except.ok q →
        ∃ cpath dir name, env.canon file = some cpath
          ∧ parentDir cpath = some dir ∧ q = dir ++ [name]
          ∧ parentDir q = parentDir cpath) :=
  ⟨rename_ok_shape env tmp file command dryRun p,
   printRename_ok_shape env tmp file cmd cmdArgs dryRun q⟩

/-- Witness for C8: in the concrete successful dry run, the proposed
path is `/home/b.txt`, whose parent `/home` is the parent of the
canonicalized original `/home/a.txt`. -/
theorem rename_parent_dir_invariant_witness :
    ∃ cpath dir name, Env.canon renameSimEnv ["home", "a.txt"] = some cpath
      ∧ parentDir cpath = some dir ∧ ["home", "b.txt"] = dir ++ [name]
      ∧ parentDir ["home", "b.txt"] = parentDir cpath :=
  (rename_parent_dir_invariant renameSimEnv ["tmpd"] ["home", "a.txt"]
    ["upper"] "upper" [] true ["home", "b.txt"] ["home", "b.txt"]).1 rfl

/-- C10: calling the library `rename` with an empty command list invokes
no external process, and the temporary directory is created first and
removed on exit; when the path canonicalizes, has a parent and a file
name, and the placeholder write succeeds, the reported error is
"rename command is missing". -/
theorem rename_empty_command (env : Env) (tmp file : Path) (dryRun : Bool) :
    (∃ e, (rename env tmp file [] dryRun).1 = Except.error e)
    ∧ (∀ inv, Event.invoke inv ∉ (rename env tmp file [] dryRun).2)
    ∧ (rename env tmp file [] dryRun).2.head? = some (Event.mkTemp tmp)
    ∧ (rename env tmp file [] dryRun).2.getLast? = some (Event.rmTemp tmp)
    ∧ (∀ cpath dir name, env.canon file = some cpath →
        parentDir cpath = some dir → fileName cpath = some name →
        env.writeOk (tmp ++ [name]) = true →
        (rename env tmp file [] dryRun).1 = Except.error Err.missingCommand)
    ∧ Err.message Err.missingCommand = "rename command is missing" := by
  refine ⟨?_, ?_, ?_, ?_, ?_, rfl⟩
  · simp only [rename]
    repeat' split
    all_goals simp_all
  · intro inv h
    simp only [rename] at h
    repeat' split at h
    all_goals simp_all
  · simp only [rename]
    repeat' split
    all_goals simp_all
  · simp only [rename]
    repeat' split
    all_goals simp_all
  · intro cpath dir name hc hp hf hw
    simp only [rename, hc, hp, hf, hw]
    simp

/-- Witness for C10: with the concrete environment, the empty command
list yields exactly the "rename command is missing" error. -/
theorem rename_empty_command_witness :
    (rename renameSimEnv ["tmpd"] ["home", "a.txt"] [] true).1
      = Except.error Err.missingCommand :=
  (rename_empty_command renameSimEnv ["tmpd"] ["home", "a.txt"] true).2.2.2.2.1
    ["home", "a.txt"] ["home"] "a.txt" rfl rfl rfl rfl

/-- C6 (code bug in src/src/lib.rs): when the simulated command deletes
the placeholder, `rename` reaches `next_entry()` = `Ok(None)` and the
`Option` context "failed to read first file of ..." fires, NOT the
"no file found ...; did the rename operation delete instead?" context,
which is attached to `next_entry()`'s `io::Result` error case and is
unreachable for an empty directory.  The synchronous binary
(src/src/print-rename.rs), whose iterator `next()` returns `None` for an
empty directory, does produce the vanished-file message for the same
scenario, confirming the intended behaviour.  The real file is not
renamed in either case: the only invocation ran in the temporary
directory. -/
theorem vanished_placeholder_misreported :
    (rename deleteSimEnv ["tmpd"] ["home", "a.txt"] ["rm"] false).1
      = Except.error (Err.readFirstFileFailed ["tmpd"])
    ∧ Err.message (Err.readFirstFileFailed ["tmpd"])
      = "failed to read first file of `/tmpd`"
    ∧ Err.message (Err.readFirstFileFailed ["tmpd"])
      ≠ Err.message (Err.noFileFound ["tmpd"])
    ∧ (rename deleteSimEnv ["tmpd"] ["home", "a.txt"] ["rm"] false).2
      = [Event.mkTemp ["tmpd"], Event.write ["tmpd", "a.txt"],
         Event.invoke ⟨"rm", ["a.txt"], ["tmpd"]⟩, Event.rmTemp ["tmpd"]]
    ∧ (printRename deleteSimEnv ["tmpe"] ["home", "a.txt"] "rm" [] false).1
      = Except.error (Err.noFileFound ["tmpe"])
    ∧ Err.message (Err.noFileFound ["tmpe"])
      = "no file found in `/tmpe`; did the rename operation delete instead?" := by
  refine ⟨rfl, by decide, by decide, rfl, rfl, by decide⟩

theorem confirmLoop_no_join (f d : String) :
    ∀ (inputs : List String) (ev : BEvent),
      ev ∈ (confirmLoop f d inputs).2.2 → ev.isJoin = false := by
  intro inputs
  induction inputs with
  | nil => intro ev h; simp [confirmLoop] at h
  | cons i rest ih =>
    intro ev h
    simp only [confirmLoop] at h
    split at h
    · simp at h
      subst h
      rfl
    · simp at h
      rcases h with rfl | rfl | h
      · rfl
      · rfl
      · exact ih ev h

theorem batchMain_no_join :
    ∀ (sims : List (Except Err (Path × Path))) (inputs : List String)
      (ev : BEvent), ev ∈ (batchMain sims inputs).2 → ev.isJoin = false := by
  intro sims
  induction sims with
  | nil => intro inputs ev h; simp [batchMain] at h
  | cons s rest ih =>
    intro inputs ev h
    rcases s with e | ⟨src, dst⟩
    · simp [batchMain] at h
    · rcases hsf : fileName src with _ | srcFile
      · simp [batchMain, hsf] at h
      rcases hdf : fileName dst with _ | dstFile
      · simp [batchMain, hsf, hdf] at h
      by_cases hEq : srcFile = dstFile
      · simp only [batchMain, hsf, hdf, if_pos hEq] at h
        exact ih inputs ev h
      · rcases hcl : confirmLoop srcFile dstFile inputs with ⟨dec, rem, evs⟩
        have hevs : ∀ e, e ∈ evs → BEvent.isJoin e = false := by
          intro e he
          have hx := confirmLoop_no_join srcFile dstFile inputs e
          rw [hcl] at hx
          exact hx he
        rcases dec with _ | dec
        · simp only [batchMain, hsf, hdf, if_neg hEq, hcl] at h
          exact hevs ev h
        · rcases dec with _ | _ | _
          · simp only [batchMain, hsf, hdf, if_neg hEq, hcl] at h
            simp at h
            rcases h with h | rfl | h
            · exact hevs ev h
            · rfl
            · exact ih rem ev h
          · simp only [batchMain, hsf, hdf, if_neg hEq, hcl] at h
            rcases List.mem_append.mp h with h | h
            · exact hevs ev h
            · exact ih rem ev h
          · simp only [batchMain, hsf, hdf, if_neg hEq, hcl] at h
            exact hevs ev h

theorem batchMain_error_from_sims :
    ∀ (sims : List (Except Err (Path × Path))) (inputs : List String)
      (er : Err), (batchMain sims inputs).1 = some (Except.error er) →
      Except.error er ∈ sims ∨ ∃ q, er = Err.noFileName q := by
  intro sims
  induction sims with
  | nil => intro inputs er h; simp [batchMain] at h
  | cons s rest ih =>
    intro inputs er h
    rcases s with e | ⟨src, dst⟩
    · simp [batchMain] at h
      subst h
      exact Or.inl (List.mem_cons_self _ _)
    · rcases hsf : fileName src with _ | srcFile
      · simp [batchMain, hsf] at h
        exact Or.inr ⟨src, h.symm⟩
      rcases hdf : fileName dst with _ | dstFile
      · simp [batchMain, hsf, hdf] at h
        exact Or.inr ⟨dst, h.symm⟩
      by_cases hEq : srcFile = dstFile
      · simp only [batchMain, hsf, hdf, if_pos hEq] at h
        rcases ih inputs er h with hm | hq
        · exact Or.inl (List.mem_cons_of_mem _ hm)
        · exact Or.inr hq
      · rcases hcl : confirmLoop srcFile dstFile inputs with ⟨dec, rem, evs⟩
        rcases dec with _ | dec
        · simp only [batchMain, hsf, hdf, if_neg hEq, hcl] at h
          simp at h
        · rcases dec with _ | _ | _
          · simp only [batchMain, hsf, hdf, if_neg hEq, hcl] at h
            rcases ih rem er h with hm | hq
            · exact Or.inl (List.mem_cons_of_mem _ hm)
            · exact Or.inr hq
          · simp only [batchMain, hsf, hdf, if_neg hEq, hcl] at h
            rcases ih rem er h with hm | hq
            · exact Or.inl (List.mem_cons_of_mem _ hm)
            · exact Or.inr hq
          · simp only [batchMain, hsf, hdf, if_neg hEq, hcl] at h
            simp at h

theorem confirmLoop_cons_events (f d i : String) (tl : List String) :
    ∃ t, (confirmLoop f d (i :: tl)).2.2 = BEvent.prompt f d :: t := by
  simp only [confirmLoop]
  split
  · exact ⟨_, rfl⟩
  · exact ⟨_, rfl⟩

/-- C4: the confirmation keystroke mapping: empty input, "y" and "Y"
accept; "n" and "N" reject; "q" quits (and the batch returns at once);
every other input is reported as not understood and the prompt is
repeated for the same file. -/
theorem confirm_keystroke_mapping :
    (∀ s, classify s = some Decision.accept ↔ (s = "" ∨ s = "y" ∨ s = "Y"))
    ∧ (∀ s, classify s = some Decision.reject ↔ (s = "n" ∨ s = "N"))
    ∧ (∀ s, classify s = some Decision.quit ↔ s = "q")
    ∧ (∀ src dst s rest, classify s = none →
        confirmLoop src dst (s :: rest)
          = ((confirmLoop src dst rest).1, (confirmLoop src dst rest).2.1,
              BEvent.prompt src dst :: BEvent.notUnderstood s
                :: (confirmLoop src dst rest).2.2))
    ∧ (∀ (src dst : Path) (f g : String)
        (rest : List (Except Err (Path × Path))) (tl : List String),
        fileName src = some f → fileName dst = some g → f ≠ g →
        batchMain (Except.ok (src, dst) :: rest) ("q" :: tl)
          = (some (Except.ok ()), [BEvent.prompt f g])) := by
  refine ⟨?_, ?_, ?_, ?_, ?_⟩
  · intro s
    constructor
    · intro h
      unfold classify at h
      split_ifs at h <;> simp_all
    · rintro (rfl | rfl | rfl) <;> rfl
  · intro s
    constructor
    · intro h
      unfold classify at h
      split_ifs at h <;> simp_all
    · rintro (rfl | rfl) <;> rfl
  · intro s
    constructor
    · intro h
      unfold classify at h
      split_ifs at h <;> simp_all
    · rintro rfl
      rfl
  · intro src dst s rest h
    simp [confirmLoop, h]
  · intro src dst f g rest tl hf hg hne
    have hq : classify "q" = some Decision.quit := by decide
    simp [batchMain, hf, hg, hne, confirmLoop, hq]

/-- Witness for C4: with two concrete files and keystrokes "x" (not
understood) then "q", the batch returns `Ok` after re-prompting. -/
theorem confirm_keystroke_mapping_witness :
    batchMain [Except.ok (["d", "a"], ["d", "b"])] ("q" :: ["y"])
      = (some (Except.ok ()), [BEvent.prompt "a" "b"]) :=
  confirm_keystroke_mapping.2.2.2.2 ["d", "a"] ["d", "b"] "a" "b" [] ["y"]
    rfl rfl (by decide)

/-- C5: a file whose proposed name equals its current name is skipped
silently — the orchestrator behaves exactly as if the file were absent
(no prompt, no spawned rename); when the names differ and a keystroke is
available, the very first emitted event is the confirmation prompt. -/
theorem identity_rename_skipped (src dst : Path)
    (rest : List (Except Err (Path × Path))) (inputs : List String)
    (fs fd : String) (hs : fileName src = some fs)
    (hd : fileName dst = some fd) :
    (fs = fd →
      batchMain (Except.ok (src, dst) :: rest) inputs = batchMain rest inputs)
    ∧ (fs ≠ fd → ∀ i tl, inputs = i :: tl →
        ∃ tail, (batchMain (Except.ok (src, dst) :: rest) inputs).2
          = BEvent.prompt fs fd :: tail) := by
  constructor
  · intro hEq
    simp [batchMain, hs, hd, hEq]
  · intro hne i tl hin
    subst hin
    obtain ⟨t, ht⟩ := confirmLoop_cons_events fs fd i tl
    rcases hcl : confirmLoop fs fd (i :: tl) with ⟨dec, rem, evs⟩
    rw [hcl] at ht
    simp only at ht
    subst ht
    rcases dec with _ | dec
    · exact ⟨t, by simp [batchMain, hs, hd, hne, hcl]⟩
    · rcases dec with _ | _ | _
      · exact ⟨t ++ BEvent.spawn src :: (batchMain rest rem).2,
          by simp [batchMain, hs, hd, hne, hcl]⟩
      · exact ⟨t ++ (batchMain rest rem).2,
          by simp [batchMain, hs, hd, hne, hcl]⟩
      · exact ⟨t, by simp [batchMain, hs, hd, hne, hcl]⟩

/-- Witness for C5: the identity proposal (`a` → `a`) is skipped — the
run equals the run on the remaining (empty) stream — and with differing
names the first event is the prompt. -/
theorem identity_rename_skipped_witness :
    batchMain [Except.ok (["d", "a"], ["e", "a"])] ["y"] = batchMain [] ["y"]
    ∧ ∃ tail, (batchMain [Except.ok (["d", "a"], ["d", "b"])] ["y"]).2
        = BEvent.prompt "a" "b" :: tail :=
  ⟨(identity_rename_skipped ["d", "a"] ["e", "a"] [] ["y"] "a" "a" rfl rfl).1 rfl,
   (identity_rename_skipped ["d", "a"] ["d", "b"] [] ["y"] "a" "b" rfl rfl).2
     (by decide) "y" [] rfl⟩

/-- C9: an error in the dry-run simulation stream aborts the whole batch
at once — the orchestrator returns that error with no further events and
no further files processed — whereas a spawned real rename's outcome is
never consulted: after an accepted file, the run continues exactly as the
run on the remaining stream, whatever becomes of the spawned task. -/
theorem sim_error_aborts_batch (e : Err)
    (rest : List (Except Err (Path × Path))) (inputs : List String) :
    batchMain (Except.error e :: rest) inputs = (some (Except.error e), [])
    ∧ (∀ (src dst : Path) (fs fd : String)
        (rest2 : List (Except Err (Path × Path))) (inputs2 rem : List String)
        (evs : List BEvent),
        fileName src = some fs → fileName dst = some fd → fs ≠ fd →
        confirmLoop fs fd inputs2 = (some Decision.accept, rem, evs) →
        batchMain (Except.ok (src, dst) :: rest2) inputs2
          = ((batchMain rest2 rem).1,
             evs ++ BEvent.spawn src :: (batchMain rest2 rem).2)) := by
  constructor
  · rfl
  · intro src dst fs fd rest2 inputs2 rem evs hf hg hne hcl
    simp [batchMain, hf, hg, hne, hcl]

/-- Witness for C9: a concrete simulation error aborts a two-file batch
with no events, and a concrete accepted file is followed by processing
of the rest of the stream. -/
theorem sim_error_aborts_batch_witness :
    batchMain [Except.error Err.missingCommand,
        Except.ok (["d", "a"], ["d", "b"])] ["y"]
      = (some (Except.error Err.missingCommand), [])
    ∧ batchMain [Except.ok (["d", "a"], ["d", "b"]),
        Except.error Err.missingCommand] ["y"]
      = ((batchMain [Except.error Err.missingCommand] []).1,
         [BEvent.prompt "a" "b"] ++ BEvent.spawn ["d", "a"]
           :: (batchMain [Except.error Err.missingCommand] []).2) :=
  ⟨(sim_error_aborts_batch Err.missingCommand
      [Except.ok (["d", "a"], ["d", "b"])] ["y"]).1,
   (sim_error_aborts_batch Err.missingCommand [] []).2 ["d", "a"] ["d", "b"]
     "a" "b" [Except.error Err.missingCommand] ["y"] [] [BEvent.prompt "a" "b"]
     rfl rfl (by decide) rfl⟩

/-- C3 amended: a `Quit` decision makes the orchestrator return `Ok(())`
at once: the events of the run are exactly those of the final
confirmation — nothing further is consumed from the simulation stream,
no further prompt appears, and no spawned task is joined or aborted (the
source discards the handles, cf. `batchMain_no_join`). -/
theorem quit_stops_consumption (src dst : Path) (fs fd : String)
    (rest : List (Except Err (Path × Path))) (inputs rem : List String)
    (evs : List BEvent) (hs : fileName src = some fs)
    (hd : fileName dst = some fd) (hne : fs ≠ fd)
    (hq : confirmLoop fs fd inputs = (some Decision.quit, rem, evs)) :
    batchMain (Except.ok (src, dst) :: rest) inputs
      = (some (Except.ok ()), evs) := by
  simp [batchMain, hs, hd, hne, hq]

/-- Witness for C3: a concrete quit after one unrecognized keystroke. -/
theorem quit_stops_consumption_witness :
    batchMain [Except.ok (["d", "a"], ["d", "b"]),
        Except.ok (["d", "c"], ["d", "e"])] ["q", "y"]
      = (some (Except.ok ()), [BEvent.prompt "a" "b"]) :=
  quit_stops_consumption ["d", "a"] ["d", "b"] "a" "b"
    [Except.ok (["d", "c"], ["d", "e"])] ["q", "y"] ["y"]
    [BEvent.prompt "a" "b"] rfl rfl (by decide) rfl

/-- C3 counterexample: in a concrete run, the first file is accepted (a
real rename is spawned) and the second file's prompt is answered `q`;
the orchestrator returns `Ok(())` immediately, and its full event trace
contains no join of the spawned task — the handle is discarded, so the
claim that every already-spawned task "is joined before the orchestrator
returns" fails. -/
theorem quit_returns_without_joining :
    batchMain [Except.ok (["d", "a"], ["d", "b"]),
        Except.ok (["d", "c"], ["d", "e"])] ["y", "q"]
      = (some (Except.ok ()),
         [BEvent.prompt "a" "b", BEvent.spawn ["d", "a"],
          BEvent.prompt "c" "e"])
    ∧ spawnedSrcs (batchMain [Except.ok (["d", "a"], ["d", "b"]),
        Except.ok (["d", "c"], ["d", "e"])] ["y", "q"]).2 = [["d", "a"]]
    ∧ ¬ (∀ s ∈ spawnedSrcs (batchMain [Except.ok (["d", "a"], ["d", "b"]),
            Except.ok (["d", "c"], ["d", "e"])] ["y", "q"]).2,
          BEvent.join s ∈ (batchMain [Except.ok (["d", "a"], ["d", "b"]),
            Except.ok (["d", "c"], ["d", "e"])] ["y", "q"]).2) := by
  refine ⟨rfl, rfl, ?_⟩
  intro hall
  have h := hall ["d", "a"] (by decide)
  exact absurd h (by decide)

/-- C2 amended: the orchestrator's result never reflects a spawned real
rename: no task is ever joined (its handle is discarded), an error exit
can only come from the simulation stream itself or from a path without a
file name, and an exhausted stream exits `Ok` unconditionally. -/
theorem batch_result_ignores_spawned_tasks
    (sims : List (Except Err (Path × Path))) (inputs : List String) :
    (∀ ev ∈ (batchMain sims inputs).2, ev.isJoin = false)
    ∧ (∀ er, (batchMain sims inputs).1 = some (Except.error er) →
        Except.error er ∈ sims ∨ ∃ q, er = Err.noFileName q)
    ∧ batchMain [] inputs = (some (Except.ok ()), []) :=
  ⟨fun ev h => batchMain_no_join sims inputs ev h,
   fun er h => batchMain_error_from_sims sims inputs er h, rfl⟩

/-- Witness for C2: in the concrete accepted run, the spawn event is not
a join, and the result of the empty stream is `Ok`. -/
theorem batch_result_ignores_spawned_tasks_witness :
    BEvent.isJoin (BEvent.spawn ["d", "a"]) = false
    ∧ batchMain [] ["y"] = (some (Except.ok ()), []) :=
  ⟨(batch_result_ignores_spawned_tasks [Except.ok (["d", "a"], ["d", "b"])]
      ["y"]).1 (BEvent.spawn ["d", "a"]) (by decide),
   (batch_result_ignores_spawned_tasks [] ["y"]).2.2⟩

/-- C2 counterexample: the concrete accepted run exits with success and
has spawned one real-rename task; yet for the outcome assignment under
which that task fails, "every spawned task succeeded" is false — the
exit status does not depend on the spawned tasks' outcomes, because
their handles are discarded and no failure is ever collected. -/
theorem batch_success_despite_failed_task :
    (batchMain [Except.ok (["d", "a"], ["d", "b"])] ["y"]).1
      = some (Except.ok ())
    ∧ spawnedSrcs (batchMain [Except.ok (["d", "a"], ["d", "b"])] ["y"]).2
      = [["d", "a"]]
    ∧ ¬ (∀ outcome : Path → Bool,
          (batchMain [Except.ok (["d", "a"], ["d", "b"])] ["y"]).1
            = some (Except.ok ()) →
          ∀ s ∈ spawnedSrcs
            (batchMain [Except.ok (["d", "a"], ["d", "b"])] ["y"]).2,
            outcome s = true) := by
  refine ⟨rfl, rfl, ?_⟩
  intro hall
  have h := hall (fun _ => false) rfl ["d", "a"] (by decide)
  simp at h

end BatchRenamer
